import Mathlib

/-!
Shallow embedding of the Campus Life Planner's email validator and storage
module (scripts/email-validator.js and scripts/storage.js), with theorems
checking the repository's specification against the code.

JS strings are modelled as `List Char` (wrapped into `String` at the API
boundary), JS values as the inductive `JSVal`, and the browser storage pair
(localStorage / sessionStorage) as an explicit `StorageState` record.
-/

namespace Planner

/-! ### JS character classes and small string helpers

The regex character classes used by the validator are ASCII-only, so each
class is embedded as a decidable predicate on the character's code point. -/

/-- Code points of `[a-zA-Z]` (the JS regex letter class). -/
def letterCode (n : Nat) : Bool :=
  (65 ≤ n && n ≤ 90) || (97 ≤ n && n ≤ 122)

/-- Code points of `[0-9]`. -/
def digitCode (n : Nat) : Bool :=
  48 ≤ n && n ≤ 57

/-- Code points of the local-part class of the validator's main regex:
letters, digits, and the specials . ! # $ % & ' * + / = ? ^ _ backtick
left-brace vertical-bar right-brace tilde hyphen. -/
def localCode (n : Nat) : Bool :=
  letterCode n || digitCode n ||
  n = 46 || n = 33 || n = 35 || n = 36 || n = 37 || n = 38 || n = 39 ||
  n = 42 || n = 43 || n = 47 || n = 61 || n = 63 || n = 94 || n = 95 ||
  n = 96 || n = 123 || n = 124 || n = 125 || n = 126 || n = 45

/-- Code points of the domain-label class `[a-zA-Z0-9-]`. -/
def labelCode (n : Nat) : Bool :=
  letterCode n || digitCode n || n = 45

/-- Code points the JS `String.prototype.trim` removes
(WhiteSpace and LineTerminator code points). -/
def jsWhitespaceCode (n : Nat) : Bool :=
  (9 ≤ n && n ≤ 13) || n = 32 || n = 160 || n = 5760 ||
  (8192 ≤ n && n ≤ 8202) || n = 8232 || n = 8233 || n = 8239 ||
  n = 8287 || n = 12288 || n = 65279

def isLetterCh (c : Char) : Bool := letterCode c.toNat
def isDigitCh (c : Char) : Bool := digitCode c.toNat
def isLocalChar (c : Char) : Bool := localCode c.toNat
def isLabelChar (c : Char) : Bool := labelCode c.toNat
def isAlnumCh (c : Char) : Bool := letterCode c.toNat || digitCode c.toNat
def jsIsWhitespace (c : Char) : Bool := jsWhitespaceCode c.toNat

/-- JS `String.prototype.trim`. -/
def jsTrim (s : List Char) : List Char :=
  ((s.dropWhile jsIsWhitespace).reverse.dropWhile jsIsWhitespace).reverse

/-- JS `str.split(sep)` for a one-character separator. -/
def jsSplit (sep : Char) (s : List Char) : List (List Char) :=
  s.splitOnP (· == sep)

/-- JS `str.includes(c)` for a one-character needle. -/
def jsIncludes (c : Char) (s : List Char) : Bool :=
  s.any (· == c)

/-- JS `str.startsWith(c)` for a one-character prefix. -/
def jsStartsWith (c : Char) (s : List Char) : Bool :=
  match s.head? with
  | some a => a == c
  | none => false

/-- JS `str.endsWith(c)` for a one-character suffix. -/
def jsEndsWith (c : Char) (s : List Char) : Bool :=
  match s.getLast? with
  | some a => a == c
  | none => false

/-- JS `str.includes('..')`: two consecutive dots occur somewhere. -/
def hasDoubleDot : List Char → Bool
  | [] => false
  | [_] => false
  | a :: b :: rest => (a == '.' && b == '.') || hasDoubleDot (b :: rest)

/-- JS `(str.match(/@/g) || []).length`: the number of occurrences. -/
def jsCountChar (c : Char) (s : List Char) : Nat :=
  s.countP (· == c)

/-! ### isValidEmail (scripts/email-validator.js lines 11-99) -/

/-- One domain label of the main regex:
`[a-zA-Z0-9](?:[a-zA-Z0-9-]{0,61}[a-zA-Z0-9])?` — 1 to 63 characters from
`[a-zA-Z0-9-]`, first and last alphanumeric. -/
def regexLabelOk (l : List Char) : Bool :=
  !l.isEmpty && l.length ≤ 63 && l.all isLabelChar &&
  (match l.head? with
   | some c => isAlnumCh c
   | none => false) &&
  (match l.getLast? with
   | some c => isAlnumCh c
   | none => false)

/-- The validator's main regex
`^[LOCAL]+@LABEL(\.LABEL)*$`.  Neither character class contains the
separator `@`, and a LABEL never contains a dot, so the regex matches
exactly when the string splits at a unique `@` into a nonempty run of
local-class characters and a dot-separated list of labels. -/
def emailRegexTest (s : List Char) : Bool :=
  let parts := jsSplit '@' s
  parts.length == 2 &&
  (let l := parts.headD []
   !l.isEmpty && l.all isLocalChar) &&
  (jsSplit '.' (parts.getD 1 [])).all regexLabelOk

/-- Body of `isValidEmail` after the initial trim (the early-return chain
of the source, folded into one boolean conjunction). -/
def isValidEmailCore (s : List Char) : Bool :=
  let parts := jsSplit '@' s
  let localPart := parts.headD []
  let domain := parts.getD 1 []
  let domainLabels := jsSplit '.' domain
  let tld := domainLabels.getLastD []
  -- length constraints
  (decide (1 ≤ s.length) && decide (s.length ≤ 254)) &&
  -- RFC 5322 style main regex
  emailRegexTest s &&
  -- local part: nonempty, at most 64 chars
  (!localPart.isEmpty && decide (localPart.length ≤ 64)) &&
  -- local part must contain at least one letter
  localPart.any isLetterCh &&
  -- local part cannot start or end with a dot
  (!jsStartsWith '.' localPart && !jsEndsWith '.' localPart) &&
  -- local part cannot have consecutive dots
  !hasDoubleDot localPart &&
  -- domain: nonempty, at most 253 chars
  (!domain.isEmpty && decide (domain.length ≤ 253)) &&
  -- domain must have at least one dot
  jsIncludes '.' domain &&
  -- domain cannot start or end with a dot or hyphen
  (!jsStartsWith '.' domain && !jsEndsWith '.' domain &&
   !jsStartsWith '-' domain && !jsEndsWith '-' domain) &&
  -- every label: nonempty, at most 63 chars, no leading/trailing hyphen,
  -- only alphanumerics and hyphens
  domainLabels.all (fun lab =>
    !lab.isEmpty && decide (lab.length ≤ 63) &&
    !jsStartsWith '-' lab && !jsEndsWith '-' lab &&
    lab.all isLabelChar) &&
  -- top-level domain: at least 2 characters, only letters
  (decide (2 ≤ tld.length) && !tld.isEmpty && tld.all isLetterCh)

/-- `isValidEmail` on the character-list model of the input string. -/
def isValidEmailL (s : List Char) : Bool :=
  isValidEmailCore (jsTrim s)

/-- `isValidEmail` (scripts/email-validator.js lines 11-99).  The `typeof`
check is vacuous here because the model's input is always a string; the
falsy check on the empty string is subsumed by the length check. -/
def isValidEmail (s : String) : Bool :=
  isValidEmailL s.data

/-! ### getEmailValidationError (scripts/email-validator.js lines 125-203) -/

/-- `getEmailValidationError` on the character-list model: either a
detailed error message or `none` for a valid address. -/
def getEmailValidationErrorL (s0 : List Char) : Option String :=
  if s0.isEmpty then some "Email address is required"
  else
    let s := jsTrim s0
    let parts := jsSplit '@' s
    let localPart := parts.headD []
    let domain := parts.getD 1 []
    let tld := (jsSplit '.' domain).getLastD []
    if s.isEmpty then some "Email address is required"
    else if 254 < s.length then
      some "Email address is too long (maximum 254 characters)"
    else if !jsIncludes '@' s then
      some "Email address must contain @ symbol"
    else if 1 < jsCountChar '@' s then
      some "Email address can only contain one @ symbol"
    else if localPart.isEmpty then
      some "Email address must have at least one character before @"
    else if !localPart.any isLetterCh then
      some "Username must contain at least one letter"
    else if 64 < localPart.length then
      some "Local part is too long (maximum 64 characters)"
    else if jsStartsWith '.' localPart || jsEndsWith '.' localPart then
      some "Local part cannot start or end with a dot"
    else if hasDoubleDot localPart then
      some "Local part cannot contain consecutive dots"
    else if domain.isEmpty then
      some "Email address must have a domain after @"
    else if !jsIncludes '.' domain then
      some "Domain must contain at least one dot"
    else if jsStartsWith '.' domain || jsEndsWith '.' domain then
      some "Domain cannot start or end with a dot"
    else if jsStartsWith '-' domain || jsEndsWith '-' domain then
      some "Domain cannot start or end with a hyphen"
    else if tld.length < 2 then
      some "Top-level domain must be at least 2 characters"
    else if !(!tld.isEmpty && tld.all isLetterCh) then
      some "Top-level domain must contain only letters"
    else if !isValidEmailL s then
      some "Please enter a valid email address"
    else none

/-- `getEmailValidationError` (scripts/email-validator.js lines 125-203). -/
def getEmailValidationError (s : String) : Option String :=
  getEmailValidationErrorL s.data

/-! ### JS values

JSON-representable JS values (plus `undefined` for absent properties).
Numbers are modelled as rationals; NaN and infinities never arise from
`JSON.parse` and are not modelled. -/

inductive JSVal where
  | vnull
  | vundef
  | vbool (b : Bool)
  | vnum (q : ℚ)
  | vstr (s : String)
  | varr (elems : List JSVal)
  | vobj (fields : List (String × JSVal))

namespace JSVal

/-- `v === null`. -/
def isNull : JSVal → Bool
  | vnull => true
  | _ => false

/-- `v === undefined`. -/
def isUndef : JSVal → Bool
  | vundef => true
  | _ => false

/-- JS falsiness: `null`, `undefined`, `false`, `0`, and `""` are falsy. -/
def falsy : JSVal → Bool
  | vnull => true
  | vundef => true
  | vbool b => !b
  | vnum q => q == 0
  | vstr s => s.isEmpty
  | varr _ => false
  | vobj _ => false

/-- JS `typeof`.  Note `typeof null` is `"object"`, and arrays are objects. -/
def typeofJS : JSVal → String
  | vnull => "object"
  | vundef => "undefined"
  | vbool _ => "boolean"
  | vnum _ => "number"
  | vstr _ => "string"
  | varr _ => "object"
  | vobj _ => "object"

/-- First binding of a key in an object's field list (JSON.parse produces
at most one binding per key). -/
def lookupFirst (fields : List (String × JSVal)) (k : String) : Option JSVal :=
  match fields with
  | [] => none
  | (k0, v) :: rest => if k0 = k then some v else lookupFirst rest k

/-- JS property read `v[k]` for a string key: `undefined` when the key is
absent or the value has no string-keyed own properties. -/
def getProp (v : JSVal) (k : String) : JSVal :=
  match v with
  | vobj fields => (lookupFirst fields k).getD vundef
  | _ => vundef

/-- JS `Object.prototype.hasOwnProperty` for a string key on the values
`JSON.parse` can produce (arrays have only index keys). -/
def hasProp (v : JSVal) (k : String) : Bool :=
  match v with
  | vobj fields => fields.any (fun kv => kv.1 == k)
  | _ => false

/-- JS `Array.isArray(v) && v.length > 0`. -/
def isNonemptyArray : JSVal → Bool
  | varr (_ :: _) => true
  | _ => false

/-- Elements of an array value (callers only use it after `Array.isArray`). -/
def arrElems : JSVal → List JSVal
  | varr xs => xs
  | _ => []

end JSVal

/-! ### Storage model

A stored string is modelled by its `JSON.parse` behavior: either the value
it parses to, or a marker that parsing throws.  `JSON.stringify` of a value
`v` is modelled as `json v` (JSON round-trips the modelled values).
`StorageState` carries both web stores and flags for the failure modes the
source handles in `catch` blocks: `setItem` throwing (quota) on either
store, and the bundled seed data being unavailable. -/

inductive StoredString where
  | json (v : JSVal)
  | invalid

structure StorageState where
  /-- `localStorage` under STORAGE_KEY; `none` for an absent (or empty,
  hence falsy) entry. -/
  localData : Option StoredString
  /-- `sessionStorage` under STORAGE_KEY + '_backup'. -/
  sessionBackup : Option StoredString
  /-- `localStorage` under SETTINGS_KEY. -/
  settingsData : Option StoredString
  /-- whether `localStorage.setItem` throws (e.g. quota exceeded). -/
  localWriteFails : Bool
  /-- whether `sessionStorage.setItem` throws. -/
  sessionWriteFails : Bool
  /-- whether reading the bundled seed dataset throws. -/
  seedFails : Bool

/-- Modelled from the spec: the bundled seed dataset (`loadSeedData` is
called by scripts/storage.js but its definition is not under src/).  The
spec describes it only as "a bundled seed dataset", so its concrete tasks
are representative; no theorem depends on their contents. -/
def seedTasks : List JSVal :=
  [JSVal.vobj [("id", JSVal.vstr "seed_1"), ("title", JSVal.vstr "Welcome task"),
    ("dueDate", JSVal.vstr "2025-01-15"), ("duration", JSVal.vnum 1),
    ("tag", JSVal.vstr "Reading")],
   JSVal.vobj [("id", JSVal.vstr "seed_2"), ("title", JSVal.vstr "Plan week"),
    ("dueDate", JSVal.vstr "2025-01-16"), ("duration", JSVal.vnum 2),
    ("tag", JSVal.vstr "Planning")]]

/-- Modelled from the spec: `loadSeedData` (missing from src/) returns the
bundled seed dataset, or throws when it is unavailable (`none` models the
throw; the storage section of the spec then falls back to an empty
collection). -/
def loadSeedData (st : StorageState) : Option (List JSVal) :=
  if st.seedFails then none else some seedTasks

/-- Modelled from the spec: `createAutomaticBackup` (called by `saveTasks`
but missing from src/) writes the collection to the session-scoped backup
entry; per the spec's storage-failure rule ("degrade to fallback store,
never crash") a failing session write is absorbed. -/
def createAutomaticBackup (st : StorageState) (tasks : List JSVal) :
    StorageState :=
  if st.sessionWriteFails then st
  else { st with sessionBackup := some (StoredString.json (JSVal.varr tasks)) }

/-- `saveTasks` (scripts/storage.js lines 419-442): returns the updated
storage state and the success flag.  The function is total: every `throw`
of the source is caught inside it. -/
def saveTasks (st : StorageState) (tasks : List JSVal) :
    StorageState × Bool :=
  if st.localWriteFails then
    -- localStorage.setItem threw: fall back to the sessionStorage backup,
    -- absorbing a second failure, and report false
    if st.sessionWriteFails then (st, false)
    else ({ st with sessionBackup := some (StoredString.json (JSVal.varr tasks)) },
          false)
  else
    let st1 := { st with localData := some (StoredString.json (JSVal.varr tasks)) }
    if 0 < tasks.length then (createAutomaticBackup st1 tasks, true)
    else (st1, true)

/-- The part of `loadTasks` from the sessionStorage backup read onward,
still inside the outer `try` (`none` models an uncaught throw). -/
def loadFromBackup (st : StorageState) : Option (StorageState × List JSVal) :=
  match st.sessionBackup with
  | some StoredString.invalid => none
  | some (StoredString.json v) =>
    if v.isNonemptyArray then
      -- save back to localStorage, then return the backup
      if st.localWriteFails then none
      else some ({ st with localData := st.sessionBackup }, v.arrElems)
    else (loadSeedData st).map (st, ·)
  | none => (loadSeedData st).map (st, ·)

/-- The `try` block of `loadTasks` (`none` models an uncaught throw). -/
def loadTasksTry (st : StorageState) : Option (StorageState × List JSVal) :=
  match st.localData with
  | some StoredString.invalid => none
  | some (StoredString.json v) =>
    if v.isNonemptyArray then some (st, v.arrElems)
    else loadFromBackup st
  | none => loadFromBackup st

/-- `loadTasks` (scripts/storage.js lines 375-412): returns the updated
storage state and the loaded collection.  The function is total: the outer
`catch` retries the seed data and falls back to the empty collection. -/
def loadTasks (st : StorageState) : StorageState × List JSVal :=
  match loadTasksTry st with
  | some r => r
  | none =>
    match loadSeedData st with
    | some seeded => (st, seeded)
    | none => (st, [])

/-! ### Settings (scripts/storage.js lines 448-471) -/

/-- The default settings object of `loadSettings`. -/
def defaultSettingsFields : List (String × JSVal) :=
  [("timeUnit", JSVal.vstr "hours"),
   ("dateFormat", JSVal.vstr "YYYY-MM-DD"),
   ("dueReminders", JSVal.vbool true),
   ("goalAlerts", JSVal.vbool true),
   ("durationCap", JSVal.vnum 40),
   ("caseSensitiveSearch", JSVal.vbool false)]

/-- Own enumerable string-keyed entries a value contributes to an object
spread `{...v}`: objects spread their fields, arrays and strings spread
index/character entries, primitives contribute nothing. -/
def spreadFields : JSVal → List (String × JSVal)
  | JSVal.vobj fields => fields
  | JSVal.varr xs => xs.enum.map (fun p => (toString p.1, p.2))
  | JSVal.vstr s => s.data.enum.map (fun p => (toString p.1, JSVal.vstr (String.mk [p.2])))
  | _ => []

/-- JS object spread `{...a, ...b}`: keys of `a` in order with values
overridden by `b` where present, then the keys of `b` not in `a`. -/
def spreadMerge (a b : List (String × JSVal)) : List (String × JSVal) :=
  a.map (fun kv => (kv.1, (JSVal.lookupFirst b kv.1).getD kv.2)) ++
  b.filter (fun kv => (JSVal.lookupFirst a kv.1).isNone)

/-- `loadSettings` (scripts/storage.js lines 448-471): defaults merged with
the parsed blob; plain defaults when the entry is absent or parsing throws.
Total: the `catch` returns the defaults. -/
def loadSettings (st : StorageState) : JSVal :=
  match st.settingsData with
  | some (StoredString.json v) =>
    JSVal.vobj (spreadMerge defaultSettingsFields (spreadFields v))
  | some StoredString.invalid => JSVal.vobj defaultSettingsFields
  | none => JSVal.vobj defaultSettingsFields

/-! ### Export and import (scripts/storage.js lines 509-613) -/

/-- Format check for the `YYYY-MM-DDTHH:MM:SS.mmmZ` strings produced by
`Date.prototype.toISOString`. -/
def isISO8601 (s : String) : Bool :=
  match s.data with
  | [y1, y2, y3, y4, h1, mo1, mo2, h2, d1, d2, t, hh1, hh2, c1, mi1, mi2,
     c2, ss1, ss2, dot, ms1, ms2, ms3, z] =>
    isDigitCh y1 && isDigitCh y2 && isDigitCh y3 && isDigitCh y4 &&
    h1 == '-' && isDigitCh mo1 && isDigitCh mo2 && h2 == '-' &&
    isDigitCh d1 && isDigitCh d2 && t == 'T' &&
    isDigitCh hh1 && isDigitCh hh2 && c1 == ':' &&
    isDigitCh mi1 && isDigitCh mi2 && c2 == ':' &&
    isDigitCh ss1 && isDigitCh ss2 && dot == '.' &&
    isDigitCh ms1 && isDigitCh ms2 && isDigitCh ms3 && z == 'Z'
  | _ => false

/-- `exportData` (scripts/storage.js lines 509-518).  `generateTimestamp`
(lines 367-369) reads the wall clock, modelled by the `nowISO` argument;
the serialized string is modelled by the envelope value it parses to. -/
def exportData (tasks : List JSVal) (settings : JSVal) (nowISO : String) :
    JSVal :=
  JSVal.vobj
    [("version", JSVal.vstr "1.0"),
     ("exportedAt", JSVal.vstr nowISO),
     ("tasks", JSVal.varr tasks),
     ("settings", settings)]

/-- Keys of an object value, in order. -/
def objKeys : JSVal → List String
  | JSVal.vobj fields => fields.map Prod.fst
  | _ => []

/-- `validateTaskStructure` (scripts/storage.js lines 577-613). -/
def validateTaskStructure (task : JSVal) : Bool :=
  -- not falsy and typeof object
  (!task.falsy && task.typeofJS == "object") &&
  -- required fields present and neither null nor undefined
  (["id", "title", "dueDate", "duration", "tag"].all (fun f =>
    task.hasProp f && !(task.getProp f).isNull &&
    !(task.getProp f).isUndef)) &&
  -- required field types
  ((task.getProp "id").typeofJS == "string") &&
  ((task.getProp "title").typeofJS == "string") &&
  ((task.getProp "dueDate").typeofJS == "string") &&
  ((task.getProp "tag").typeofJS == "string") &&
  (match task.getProp "duration" with
   | JSVal.vnum q => decide (0 ≤ q)
   | _ => false) &&
  -- optional fields, when present, must be strings
  (["description", "createdAt", "updatedAt"].all (fun f =>
    match task.getProp f with
    | JSVal.vundef => true
    | JSVal.vstr _ => true
    | _ => false))

/-- Result record of `importData`. -/
structure ImportResult where
  success : Bool
  tasks : List JSVal
  settings : Option JSVal
  errors : List String

/-- The skip report `importData` pushes for invalid tasks. -/
def skipMsg (n : Nat) : String :=
  toString n ++ " tasks were skipped due to invalid structure"

/-- `importData` (scripts/storage.js lines 525-570).  The input models
`JSON.parse` of the argument string: `Except.error msg` is a parse throw
with message `msg` (caught and reported), `Except.ok v` the parsed value. -/
def importData (input : Except String JSVal) : ImportResult :=
  match input with
  | Except.error msg => ⟨false, [], none, [msg]⟩
  | Except.ok data =>
    if data.falsy || !(data.typeofJS == "object") then
      -- `throw new Error('Invalid data format')`, caught below
      ⟨false, [], none, ["Invalid data format"]⟩
    else
      let settingsVal := data.getProp "settings"
      let importedSettings :=
        if !settingsVal.falsy && settingsVal.typeofJS == "object" then
          some settingsVal
        else none
      match data.getProp "tasks" with
      | JSVal.varr l =>
        let kept := l.filter validateTaskStructure
        let invalidCount := l.length - kept.length
        ⟨true, kept, importedSettings,
         if 0 < invalidCount then [skipMsg invalidCount] else []⟩
      | other =>
        ⟨true, [], importedSettings,
         if !other.falsy then ["Tasks data is not in the expected format"]
         else []⟩

/-! ### generateId and the add action -/

/-- Decimal digit character. -/
def digitChar (d : Nat) : Char := Char.ofNat (48 + d)

/-- Decimal rendering of a natural number, as produced by JS template
interpolation of `Date.now()`. -/
def natToDigits (n : Nat) : List Char :=
  if _h : n < 10 then [digitChar n]
  else natToDigits (n / 10) ++ [digitChar (n % 10)]
  decreasing_by
    exact Nat.div_lt_self (Nat.pos_of_ne_zero (by omega)) (by omega)

/-- `generateId` (scripts/storage.js lines 359-361):
`task_${Date.now()}_${Math.random().toString(36).substr(2, 9)}`.  The wall
clock and the random draw are inputs of the model. -/
def generateId (nowMs : Nat) (randSuffix : List Char) : List Char :=
  "task_".data ++ (natToDigits nowMs ++ '_' :: randSuffix)

/-- Modelled from the spec: the task record created by the add action
(`taskActions.addTask` lives in scripts/state.js, which is not under src/);
only the generated id matters for the claims, the remaining fields are
carried opaquely. -/
structure MTask where
  id : List Char
  payload : JSVal

/-- Modelled from the spec: the add action appends a task whose id is
generated fresh by `generateId` from the call's clock and random draw. -/
def addTask (env : Nat × List Char) (payload : JSVal) (col : List MTask) :
    List MTask :=
  col ++ [⟨generateId env.1 env.2, payload⟩]

/-- A sequence of add calls, each with its observed clock and random draw. -/
def runAdds (calls : List ((Nat × List Char) × JSVal)) : List MTask :=
  calls.foldl (fun col c => addTask c.1 c.2 col) []

/-! ### Character-class lemmas -/

theorem not_ws_of_localChar {c : Char} (h : isLocalChar c = true) :
    jsIsWhitespace c = false := by
  by_contra hw
  rw [Bool.not_eq_false] at hw
  simp only [isLocalChar, localCode, letterCode, digitCode, Bool.or_eq_true,
    Bool.and_eq_true, decide_eq_true_eq] at h
  simp only [jsIsWhitespace, jsWhitespaceCode, Bool.or_eq_true,
    Bool.and_eq_true, decide_eq_true_eq] at hw
  omega

theorem not_ws_of_letter {c : Char} (h : isLetterCh c = true) :
    jsIsWhitespace c = false := by
  by_contra hw
  rw [Bool.not_eq_false] at hw
  simp only [isLetterCh, letterCode, Bool.or_eq_true, Bool.and_eq_true,
    decide_eq_true_eq] at h
  simp only [jsIsWhitespace, jsWhitespaceCode, Bool.or_eq_true,
    Bool.and_eq_true, decide_eq_true_eq] at hw
  omega

theorem localChar_ne_at {c : Char} (h : isLocalChar c = true) :
    (c == '@') = false := by
  rw [beq_eq_false_iff_ne]
  intro he
  subst he
  exact absurd h (by decide)

theorem labelChar_ne_at {c : Char} (h : isLabelChar c = true) :
    (c == '@') = false := by
  rw [beq_eq_false_iff_ne]
  intro he
  subst he
  exact absurd h (by decide)

theorem labelChar_ne_dot {c : Char} (h : isLabelChar c = true) :
    (c == '.') = false := by
  rw [beq_eq_false_iff_ne]
  intro he
  subst he
  exact absurd h (by decide)

theorem letter_ne_at {c : Char} (h : isLetterCh c = true) :
    (c == '@') = false := by
  rw [beq_eq_false_iff_ne]
  intro he
  subst he
  exact absurd h (by decide)

theorem letter_ne_dot {c : Char} (h : isLetterCh c = true) :
    (c == '.') = false := by
  rw [beq_eq_false_iff_ne]
  intro he
  subst he
  exact absurd h (by decide)

theorem alnum_ne_dot {c : Char} (h : isAlnumCh c = true) :
    (c == '.') = false := by
  rw [beq_eq_false_iff_ne]
  intro he
  subst he
  exact absurd h (by decide)

theorem alnum_ne_hyphen {c : Char} (h : isAlnumCh c = true) :
    (c == '-') = false := by
  rw [beq_eq_false_iff_ne]
  intro he
  subst he
  exact absurd h (by decide)

theorem alnum_of_letter {c : Char} (h : isLetterCh c = true) :
    isAlnumCh c = true := by
  simp only [isLetterCh] at h
  simp only [isAlnumCh, h, Bool.true_or]

theorem labelChar_of_letter {c : Char} (h : isLetterCh c = true) :
    isLabelChar c = true := by
  simp only [isLetterCh] at h
  simp only [isLabelChar, labelCode, h, Bool.true_or]

theorem not_ws_of_alnum {c : Char} (h : isAlnumCh c = true) :
    jsIsWhitespace c = false := by
  by_contra hw
  rw [Bool.not_eq_false] at hw
  simp only [isAlnumCh, letterCode, digitCode, Bool.or_eq_true,
    Bool.and_eq_true, decide_eq_true_eq] at h
  simp only [jsIsWhitespace, jsWhitespaceCode, Bool.or_eq_true,
    Bool.and_eq_true, decide_eq_true_eq] at hw
  omega

/-! ### Trim lemmas -/

theorem dropWhile_eq_self_of_head {α} (p : α → Bool) (l : List α)
    (h : ∀ c, l.head? = some c → p c = false) : l.dropWhile p = l := by
  cases l with
  | nil => rfl
  | cons a t => simp [List.dropWhile_cons, h a rfl]

theorem head_dropWhile_false {α} (p : α → Bool) (l : List α) :
    ∀ c, (l.dropWhile p).head? = some c → p c = false := by
  induction l with
  | nil => intro c hc; simp at hc
  | cons a t ih =>
    intro c hc
    rw [List.dropWhile_cons] at hc
    by_cases hp : p a
    · rw [if_pos hp] at hc
      exact ih c hc
    · rw [if_neg hp] at hc
      simp only [List.head?_cons, Option.some.injEq] at hc
      subst hc
      exact Bool.eq_false_iff.mpr hp

theorem jsTrim_eq_self {s : List Char}
    (h1 : ∀ c, s.head? = some c → jsIsWhitespace c = false)
    (h2 : ∀ c, s.getLast? = some c → jsIsWhitespace c = false) :
    jsTrim s = s := by
  unfold jsTrim
  rw [dropWhile_eq_self_of_head _ _ h1]
  rw [dropWhile_eq_self_of_head _ _ (by
    intro c hc
    rw [List.head?_reverse] at hc
    exact h2 c hc)]
  exact List.reverse_reverse s

theorem getLast?_of_suffix {α} {l l' : List α} (h : l' <:+ l) (hne : l' ≠ []) :
    l'.getLast? = l.getLast? := by
  obtain ⟨t, rfl⟩ := h
  rw [List.getLast?_append]
  cases hl : l'.getLast? with
  | none => exact absurd (List.getLast?_eq_none_iff.mp hl) hne
  | some a => simp [Option.or]

theorem jsTrim_idem (s : List Char) : jsTrim (jsTrim s) = jsTrim s := by
  by_cases hw : (jsTrim s) = []
  · rw [hw]; rfl
  · apply jsTrim_eq_self
    · intro c hc
      unfold jsTrim at hc
      rw [List.head?_reverse] at hc
      have hsfx : ((s.dropWhile jsIsWhitespace).reverse.dropWhile jsIsWhitespace)
          <:+ (s.dropWhile jsIsWhitespace).reverse := List.dropWhile_suffix _
      have hne : ((s.dropWhile jsIsWhitespace).reverse.dropWhile jsIsWhitespace) ≠ [] := by
        intro h0
        apply hw
        unfold jsTrim
        rw [h0]
        rfl
      rw [getLast?_of_suffix hsfx hne] at hc
      rw [List.getLast?_reverse] at hc
      exact head_dropWhile_false _ _ c hc
    · intro c hc
      unfold jsTrim at hc
      rw [List.getLast?_reverse] at hc
      exact head_dropWhile_false _ _ c hc

/-! ### Split lemmas -/

theorem jsSplit_first {sep : Char} {l : List Char}
    (h : ∀ c ∈ l, (c == sep) = false) (r : List Char) :
    jsSplit sep (l ++ sep :: r) = l :: jsSplit sep r := by
  unfold jsSplit
  exact List.splitOnP_first _ _ (fun x hx => by simp [h x hx]) sep (by simp) r

theorem jsSplit_single {sep : Char} {l : List Char}
    (h : ∀ c ∈ l, (c == sep) = false) :
    jsSplit sep l = [l] := by
  unfold jsSplit
  exact List.splitOnP_eq_single _ _ (fun x hx => by simp [h x hx])

theorem length_jsSplit (sep : Char) (s : List Char) :
    (jsSplit sep s).length = jsCountChar sep s + 1 := by
  unfold jsSplit jsCountChar
  induction s with
  | nil => simp
  | cons a t ih =>
    rw [List.splitOnP_cons, List.countP_cons]
    by_cases h : (a == sep) = true
    · rw [if_pos h, if_pos h, List.length_cons, ih]
    · rw [if_neg h, if_neg h, List.length_modifyHead, ih]

theorem includes_of_count_pos {sep : Char} {s : List Char}
    (h : 0 < jsCountChar sep s) : jsIncludes sep s = true := by
  unfold jsCountChar at h
  unfold jsIncludes
  rw [List.countP_pos_iff] at h
  obtain ⟨a, ha, hp⟩ := h
  rw [List.any_eq_true]
  exact ⟨a, ha, hp⟩

/-! ### getLast? helpers -/

theorem mem_of_getLast?R {α} : ∀ {l : List α} {a : α}, l.getLast? = some a → a ∈ l
  | [], _, h => by simp at h
  | [b], a, h => by
    simp only [List.getLast?_singleton, Option.some.injEq] at h
    simp [h]
  | b :: c :: t, a, h => by
    rw [List.getLast?_cons_cons] at h
    exact List.mem_cons_of_mem _ (mem_of_getLast?R h)

theorem getLast?_append_cons {α} (l : List α) (a : α) (r : List α) :
    (l ++ a :: r).getLast? = (a :: r).getLast? := by
  rw [List.getLast?_append]
  cases hr : (a :: r).getLast? with
  | none =>
    rw [List.getLast?_eq_none_iff] at hr
    exact absurd hr (List.cons_ne_nil a r)
  | some b => simp [Option.or]

theorem getLast?_cons_ne_nil {α} {a : α} {X : List α} (h : X ≠ []) :
    (a :: X).getLast? = X.getLast? := by
  cases X with
  | nil => exact absurd rfl h
  | cons b y => exact List.getLast?_cons_cons

theorem getLast?_cons_isSome {α} (a : α) (t : List α) :
    ∃ b, (a :: t).getLast? = some b := by
  cases hL : (a :: t).getLast? with
  | none =>
    rw [List.getLast?_eq_none_iff] at hL
    exact absurd hL (List.cons_ne_nil a t)
  | some b => exact ⟨b, rfl⟩

/-! ### regexLabelOk helpers -/

theorem regexLabelOk_elim {a : Char} {t : List Char}
    (h : regexLabelOk (a :: t) = true) :
    (a :: t).length ≤ 63 ∧ (∀ c ∈ a :: t, isLabelChar c = true) ∧
    isAlnumCh a = true ∧
    ∃ b, (a :: t).getLast? = some b ∧ isAlnumCh b = true := by
  obtain ⟨bL, hbL⟩ := getLast?_cons_isSome a t
  unfold regexLabelOk at h
  rw [hbL] at h
  simp only [List.head?_cons, Bool.and_eq_true, decide_eq_true_eq,
    List.all_eq_true, Bool.not_eq_true', List.isEmpty_eq_false] at h
  exact ⟨h.1.1.1.2, h.1.1.2, h.1.2, bL, hbL, h.2⟩

theorem regexLabelOk_letters {a : Char} {t : List Char} (h63 : (a :: t).length ≤ 63)
    (hA : ∀ c ∈ a :: t, isLetterCh c = true) : regexLabelOk (a :: t) = true := by
  obtain ⟨bL, hbL⟩ := getLast?_cons_isSome a t
  unfold regexLabelOk
  rw [hbL]
  simp only [List.head?_cons, Bool.and_eq_true, decide_eq_true_eq,
    List.all_eq_true, Bool.not_eq_true', List.isEmpty_eq_false]
  refine ⟨⟨⟨⟨List.cons_ne_nil a t, h63⟩,
    fun c hc => labelChar_of_letter (hA c hc)⟩,
    alnum_of_letter (hA a (List.mem_cons_self a t))⟩,
    alnum_of_letter (hA bL (mem_of_getLast?R hbL))⟩

theorem labelCheck_of_regexLabelOk {lab : List Char} (h : regexLabelOk lab = true) :
    (!lab.isEmpty && decide (lab.length ≤ 63) &&
     !jsStartsWith '-' lab && !jsEndsWith '-' lab &&
     lab.all isLabelChar) = true := by
  cases lab with
  | nil => exact absurd h (by decide)
  | cons a t =>
    obtain ⟨h63, hchars, hhead, bL, hbL, hbLal⟩ := regexLabelOk_elim h
    have hsw : jsStartsWith '-' (a :: t) = false := by
      unfold jsStartsWith
      simp only [List.head?_cons]
      exact alnum_ne_hyphen hhead
    have hew : jsEndsWith '-' (a :: t) = false := by
      unfold jsEndsWith
      rw [hbL]
      exact alnum_ne_hyphen hbLal
    simp [hsw, hew, hchars, h63, List.all_eq_true]
    refine ⟨by simp at h63; omega, fun x hx => hchars x (List.mem_cons_of_mem a hx)⟩

/-- Acceptance side of the email validator: an address assembled as
local-part, one `@`, one intermediate label, one dot, and an alphabetic
top-level label passes `isValidEmail` when the stated structural
constraints hold. -/
theorem isValidEmailL_shape (locl d tld : List Char)
    (hl0 : locl ≠ [])
    (hl1 : locl.length ≤ 64)
    (hl2 : ∀ c ∈ locl, isLocalChar c = true)
    (hl3 : locl.any isLetterCh = true)
    (hl4 : jsStartsWith '.' locl = false)
    (hl5 : jsEndsWith '.' locl = false)
    (hl6 : hasDoubleDot locl = false)
    (hd : regexLabelOk d = true)
    (ht2 : 2 ≤ tld.length) (ht63 : tld.length ≤ 63)
    (htA : ∀ c ∈ tld, isLetterCh c = true)
    (hlen : locl.length + d.length + tld.length + 2 ≤ 254) :
    isValidEmailL (locl ++ '@' :: (d ++ '.' :: tld)) = true := by
  cases locl with
  | nil => exact absurd rfl hl0
  | cons c0 lt =>
  have hdne : d ≠ [] := by
    intro h0
    subst h0
    exact absurd hd (by decide)
  cases d with
  | nil => exact absurd rfl hdne
  | cons d0 dt =>
  cases tld with
  | nil => simp at ht2
  | cons t0 tt =>
  obtain ⟨hd63, hdchars, hdhead, dL, hdL, hdLal⟩ := regexLabelOk_elim hd
  -- decompose the split at '@'
  have hAt2 : ∀ c ∈ (d0 :: dt) ++ '.' :: (t0 :: tt), (c == '@') = false := by
    intro c hc
    rcases List.mem_append.mp hc with hcd | hct
    · exact labelChar_ne_at (hdchars c hcd)
    · rcases List.mem_cons.mp hct with rfl | hctl
      · decide
      · exact letter_ne_at (htA c hctl)
  have hsplit : jsSplit '@' ((c0 :: lt) ++ '@' :: ((d0 :: dt) ++ '.' :: (t0 :: tt)))
      = [c0 :: lt, (d0 :: dt) ++ '.' :: (t0 :: tt)] := by
    rw [jsSplit_first (fun c hc => localChar_ne_at (hl2 c hc)),
      jsSplit_single hAt2]
  -- decompose the split of the domain at '.'
  have hdots : jsSplit '.' ((d0 :: dt) ++ '.' :: (t0 :: tt)) = [d0 :: dt, t0 :: tt] := by
    rw [jsSplit_first (fun c hc => labelChar_ne_dot (hdchars c hc)),
      jsSplit_single (fun c hc => letter_ne_dot (htA c hc))]
  -- the last character of the whole address is the last letter of the tld
  obtain ⟨tL, htL⟩ := getLast?_cons_isSome t0 tt
  have hlast : ((c0 :: lt) ++ '@' :: ((d0 :: dt) ++ '.' :: (t0 :: tt))).getLast?
      = some tL := by
    rw [getLast?_append_cons, getLast?_cons_ne_nil (by simp),
      getLast?_append_cons, getLast?_cons_ne_nil (List.cons_ne_nil t0 tt), htL]
  have htLletter : isLetterCh tL = true := htA tL (mem_of_getLast?R htL)
  -- the address is its own trim
  have htrim : jsTrim ((c0 :: lt) ++ '@' :: ((d0 :: dt) ++ '.' :: (t0 :: tt)))
      = (c0 :: lt) ++ '@' :: ((d0 :: dt) ++ '.' :: (t0 :: tt)) := by
    apply jsTrim_eq_self
    · intro c hc
      simp only [List.cons_append, List.head?_cons, Option.some.injEq] at hc
      subst hc
      exact not_ws_of_localChar (hl2 c0 (List.mem_cons_self c0 lt))
    · intro c hc
      rw [hlast, Option.some.injEq] at hc
      subst hc
      exact not_ws_of_letter htLletter
  have hslen : ((c0 :: lt) ++ '@' :: ((d0 :: dt) ++ '.' :: (t0 :: tt))).length
      = lt.length + dt.length + tt.length + 5 := by
    simp [List.length_append]
    omega
  have hlen' : lt.length + dt.length + tt.length + 5 ≤ 254 := by
    simp only [List.length_cons] at hlen
    omega
  -- regex test
  have hl2b : ∀ x ∈ lt, isLocalChar x = true :=
    fun x hx => hl2 x (List.mem_cons_of_mem c0 hx)
  have hTld : regexLabelOk (t0 :: tt) = true := regexLabelOk_letters ht63 htA
  have hregex : emailRegexTest ((c0 :: lt) ++ '@' :: ((d0 :: dt) ++ '.' :: (t0 :: tt)))
      = true := by
    unfold emailRegexTest
    simp only [hsplit, List.length_cons, List.length_nil, List.headD_cons,
      List.getD_cons_succ, List.getD_cons_zero, hdots]
    simp [hd, hTld, List.all_eq_true, hl2 c0 (List.mem_cons_self c0 lt)]
    exact hl2b
  -- domain checks
  have hdomStart : jsStartsWith '.' ((d0 :: dt) ++ '.' :: (t0 :: tt)) = false := by
    unfold jsStartsWith
    simp only [List.cons_append, List.head?_cons]
    exact alnum_ne_dot hdhead
  have hdomStartH : jsStartsWith '-' ((d0 :: dt) ++ '.' :: (t0 :: tt)) = false := by
    unfold jsStartsWith
    simp only [List.cons_append, List.head?_cons]
    exact alnum_ne_hyphen hdhead
  have hdomLast : ((d0 :: dt) ++ '.' :: (t0 :: tt)).getLast? = some tL := by
    rw [getLast?_append_cons, getLast?_cons_ne_nil (List.cons_ne_nil t0 tt), htL]
  have hdomEnd : jsEndsWith '.' ((d0 :: dt) ++ '.' :: (t0 :: tt)) = false := by
    unfold jsEndsWith
    rw [hdomLast]
    exact letter_ne_dot htLletter
  have hdomEndH : jsEndsWith '-' ((d0 :: dt) ++ '.' :: (t0 :: tt)) = false := by
    unfold jsEndsWith
    rw [hdomLast]
    exact alnum_ne_hyphen (alnum_of_letter htLletter)
  have hdomDot : jsIncludes '.' ((d0 :: dt) ++ '.' :: (t0 :: tt)) = true := by
    unfold jsIncludes
    rw [List.any_eq_true]
    exact ⟨'.', by simp, by simp⟩
  have hdomNe : ((d0 :: dt) ++ '.' :: (t0 :: tt)).isEmpty = false := by simp
  have hdlen : ((d0 :: dt) ++ '.' :: (t0 :: tt)).length = dt.length + tt.length + 3 := by
    simp [List.length_append]
    omega
  have hgld : List.getLastD [d0 :: dt, t0 :: tt] ([] : List Char) = t0 :: tt := rfl
  -- the eleven conjunct groups of the validator body
  have hA1 : (decide (1 ≤ ((c0 :: lt) ++ '@' :: ((d0 :: dt) ++ '.' :: (t0 :: tt))).length)
      && decide (((c0 :: lt) ++ '@' :: ((d0 :: dt) ++ '.' :: (t0 :: tt))).length ≤ 254))
      = true := by
    simp only [Bool.and_eq_true, decide_eq_true_eq, hslen]
    omega
  have hA3 : (!(c0 :: lt).isEmpty && decide ((c0 :: lt).length ≤ 64)) = true := by
    simp only [List.isEmpty_cons, Bool.not_false, Bool.true_and, decide_eq_true_eq]
    exact hl1
  have hA5 : (!jsStartsWith '.' (c0 :: lt) && !jsEndsWith '.' (c0 :: lt)) = true := by
    simp [hl4, hl5]
  have hA7 : (!((d0 :: dt) ++ '.' :: (t0 :: tt)).isEmpty
      && decide (((d0 :: dt) ++ '.' :: (t0 :: tt)).length ≤ 253)) = true := by
    simp only [Bool.and_eq_true, Bool.not_eq_true', decide_eq_true_eq, hdlen]
    exact ⟨hdomNe, by omega⟩
  have hA9 : (!jsStartsWith '.' ((d0 :: dt) ++ '.' :: (t0 :: tt))
      && !jsEndsWith '.' ((d0 :: dt) ++ '.' :: (t0 :: tt))
      && !jsStartsWith '-' ((d0 :: dt) ++ '.' :: (t0 :: tt))
      && !jsEndsWith '-' ((d0 :: dt) ++ '.' :: (t0 :: tt))) = true := by
    rw [hdomStart, hdomEnd, hdomStartH, hdomEndH]
    rfl
  have hA10 : ([d0 :: dt, t0 :: tt].all (fun lab =>
      !lab.isEmpty && decide (lab.length ≤ 63) &&
      !jsStartsWith '-' lab && !jsEndsWith '-' lab &&
      lab.all isLabelChar)) = true := by
    have h1 := labelCheck_of_regexLabelOk hd
    have h2 := labelCheck_of_regexLabelOk hTld
    show ((!(d0 :: dt).isEmpty && decide ((d0 :: dt).length ≤ 63) &&
      !jsStartsWith '-' (d0 :: dt) && !jsEndsWith '-' (d0 :: dt) &&
      (d0 :: dt).all isLabelChar) &&
      ((!(t0 :: tt).isEmpty && decide ((t0 :: tt).length ≤ 63) &&
      !jsStartsWith '-' (t0 :: tt) && !jsEndsWith '-' (t0 :: tt) &&
      (t0 :: tt).all isLabelChar) && true)) = true
    rw [h1, h2]
    rfl
  have hA11 : (decide (2 ≤ (t0 :: tt).length) && !(t0 :: tt).isEmpty
      && (t0 :: tt).all isLetterCh) = true := by
    rw [decide_eq_true ht2, List.all_eq_true.mpr htA]
    rfl
  -- assemble
  unfold isValidEmailL
  rw [htrim]
  unfold isValidEmailCore
  simp only [hsplit, List.headD_cons, List.getD_cons_succ, List.getD_cons_zero,
    hdots, hgld]
  simp only [hA1, hregex, hA3, hl3, hA5, hl6, hA7, hdomDot, hA9, hA10, hA11,
    Bool.not_false, Bool.and_true, Bool.true_and, Bool.and_self]

/-! ### Equivalence of the detailed error reporter and the validator -/

theorem getError_none_imp (s0 : List Char)
    (h : getEmailValidationErrorL s0 = none) : isValidEmailL s0 = true := by
  simp only [getEmailValidationErrorL] at h
  by_cases hc1 : s0.isEmpty = true
  case pos => rw [if_pos hc1] at h; exact absurd h (Option.some_ne_none _)
  rw [if_neg hc1] at h
  by_cases hc2 : (jsTrim s0).isEmpty = true
  case pos => rw [if_pos hc2] at h; exact absurd h (Option.some_ne_none _)
  rw [if_neg hc2] at h
  by_cases hc3 : 254 < (jsTrim s0).length
  case pos => rw [if_pos hc3] at h; exact absurd h (Option.some_ne_none _)
  rw [if_neg hc3] at h
  by_cases hc4 : (!jsIncludes '@' (jsTrim s0)) = true
  case pos => rw [if_pos hc4] at h; exact absurd h (Option.some_ne_none _)
  rw [if_neg hc4] at h
  by_cases hc5 : 1 < jsCountChar '@' (jsTrim s0)
  case pos => rw [if_pos hc5] at h; exact absurd h (Option.some_ne_none _)
  rw [if_neg hc5] at h
  by_cases hc6 : ((jsSplit '@' (jsTrim s0)).headD []).isEmpty = true
  case pos => rw [if_pos hc6] at h; exact absurd h (Option.some_ne_none _)
  rw [if_neg hc6] at h
  by_cases hc7 : (!((jsSplit '@' (jsTrim s0)).headD []).any isLetterCh) = true
  case pos => rw [if_pos hc7] at h; exact absurd h (Option.some_ne_none _)
  rw [if_neg hc7] at h
  by_cases hc8 : 64 < ((jsSplit '@' (jsTrim s0)).headD []).length
  case pos => rw [if_pos hc8] at h; exact absurd h (Option.some_ne_none _)
  rw [if_neg hc8] at h
  by_cases hc9 : (jsStartsWith '.' ((jsSplit '@' (jsTrim s0)).headD []) || jsEndsWith '.' ((jsSplit '@' (jsTrim s0)).headD [])) = true
  case pos => rw [if_pos hc9] at h; exact absurd h (Option.some_ne_none _)
  rw [if_neg hc9] at h
  by_cases hc10 : hasDoubleDot ((jsSplit '@' (jsTrim s0)).headD []) = true
  case pos => rw [if_pos hc10] at h; exact absurd h (Option.some_ne_none _)
  rw [if_neg hc10] at h
  by_cases hc11 : ((jsSplit '@' (jsTrim s0)).getD 1 []).isEmpty = true
  case pos => rw [if_pos hc11] at h; exact absurd h (Option.some_ne_none _)
  rw [if_neg hc11] at h
  by_cases hc12 : (!jsIncludes '.' ((jsSplit '@' (jsTrim s0)).getD 1 [])) = true
  case pos => rw [if_pos hc12] at h; exact absurd h (Option.some_ne_none _)
  rw [if_neg hc12] at h
  by_cases hc13 : (jsStartsWith '.' ((jsSplit '@' (jsTrim s0)).getD 1 []) || jsEndsWith '.' ((jsSplit '@' (jsTrim s0)).getD 1 [])) = true
  case pos => rw [if_pos hc13] at h; exact absurd h (Option.some_ne_none _)
  rw [if_neg hc13] at h
  by_cases hc14 : (jsStartsWith '-' ((jsSplit '@' (jsTrim s0)).getD 1 []) || jsEndsWith '-' ((jsSplit '@' (jsTrim s0)).getD 1 [])) = true
  case pos => rw [if_pos hc14] at h; exact absurd h (Option.some_ne_none _)
  rw [if_neg hc14] at h
  by_cases hc15 : ((jsSplit '.' ((jsSplit '@' (jsTrim s0)).getD 1 [])).getLastD []).length < 2
  case pos => rw [if_pos hc15] at h; exact absurd h (Option.some_ne_none _)
  rw [if_neg hc15] at h
  by_cases hc16 : (!(!((jsSplit '.' ((jsSplit '@' (jsTrim s0)).getD 1 [])).getLastD []).isEmpty && ((jsSplit '.' ((jsSplit '@' (jsTrim s0)).getD 1 [])).getLastD []).all isLetterCh)) = true
  case pos => rw [if_pos hc16] at h; exact absurd h (Option.some_ne_none _)
  rw [if_neg hc16] at h
  by_cases hc17 : (!isValidEmailL (jsTrim s0)) = true
  case pos => rw [if_pos hc17] at h; exact absurd h (Option.some_ne_none _)
  rw [if_neg hc17] at h
  have hv2 : isValidEmailL (jsTrim s0) = true := by
    cases hX : isValidEmailL (jsTrim s0) with
    | false => exact absurd (by simp [hX]) hc17
    | true => rfl
  unfold isValidEmailL at hv2 ⊢
  rwa [jsTrim_idem] at hv2

theorem valid_imp_getError_none (s0 : List Char)
    (h : isValidEmailL s0 = true) : getEmailValidationErrorL s0 = none := by
  have hvTrim : isValidEmailL (jsTrim s0) = true := by
    unfold isValidEmailL
    rw [jsTrim_idem]
    exact h
  unfold isValidEmailL isValidEmailCore at h
  simp only [Bool.and_eq_true, decide_eq_true_eq, Bool.not_eq_true'] at h
  obtain ⟨⟨⟨⟨⟨⟨⟨⟨⟨⟨⟨h1a, h1b⟩, hreg⟩, h3a, h3b⟩, h4⟩, h5a, h5b⟩, h6⟩,
    h7a, h7b⟩, h8⟩, ⟨⟨h9a, h9b⟩, h9c⟩, h9d⟩, h10⟩, ⟨h11a, h11b⟩, h11c⟩ := h
  -- exactly one '@' in the trimmed string
  have hlen2 : (jsSplit '@' (jsTrim s0)).length = 2 := by
    unfold emailRegexTest at hreg
    simp only [Bool.and_eq_true, beq_iff_eq] at hreg
    exact hreg.1.1
  have hcount : jsCountChar '@' (jsTrim s0) = 1 := by
    have hL := length_jsSplit '@' (jsTrim s0)
    omega
  have hinc : jsIncludes '@' (jsTrim s0) = true :=
    includes_of_count_pos (by omega)
  have hs0ne : ¬(s0.isEmpty = true) := by
    rw [List.isEmpty_iff]
    intro h0
    subst h0
    simp [jsTrim] at h1a
  have hsne : ¬((jsTrim s0).isEmpty = true) := by
    rw [List.isEmpty_iff]
    intro h0
    rw [h0] at h1a
    simp at h1a
  simp only [getEmailValidationErrorL]
  rw [if_neg hs0ne, if_neg hsne,
    if_neg (show ¬(254 < (jsTrim s0).length) by omega),
    if_neg (show ¬((!jsIncludes '@' (jsTrim s0)) = true) by
      simp only [hinc]; decide),
    if_neg (show ¬(1 < jsCountChar '@' (jsTrim s0)) by omega),
    if_neg (show ¬(((jsSplit '@' (jsTrim s0)).headD []).isEmpty = true) by
      simp only [h3a]; decide),
    if_neg (show ¬((!((jsSplit '@' (jsTrim s0)).headD []).any isLetterCh) = true) by
      simp only [h4]; decide),
    if_neg (show ¬(64 < ((jsSplit '@' (jsTrim s0)).headD []).length) by omega),
    if_neg (show ¬((jsStartsWith '.' ((jsSplit '@' (jsTrim s0)).headD [])
      || jsEndsWith '.' ((jsSplit '@' (jsTrim s0)).headD [])) = true) by
      simp only [h5a, h5b]; decide),
    if_neg (show ¬(hasDoubleDot ((jsSplit '@' (jsTrim s0)).headD []) = true) by
      simp only [h6]; decide),
    if_neg (show ¬(((jsSplit '@' (jsTrim s0)).getD 1 []).isEmpty = true) by
      simp only [h7a]; decide),
    if_neg (show ¬((!jsIncludes '.' ((jsSplit '@' (jsTrim s0)).getD 1 [])) = true) by
      simp only [h8]; decide),
    if_neg (show ¬((jsStartsWith '.' ((jsSplit '@' (jsTrim s0)).getD 1 [])
      || jsEndsWith '.' ((jsSplit '@' (jsTrim s0)).getD 1 [])) = true) by
      simp only [h9a, h9b]; decide),
    if_neg (show ¬((jsStartsWith '-' ((jsSplit '@' (jsTrim s0)).getD 1 [])
      || jsEndsWith '-' ((jsSplit '@' (jsTrim s0)).getD 1 [])) = true) by
      simp only [h9c, h9d]; decide),
    if_neg (show ¬(((jsSplit '.' ((jsSplit '@' (jsTrim s0)).getD 1 [])).getLastD []).length < 2) by
      omega),
    if_neg (show ¬((!(!((jsSplit '.' ((jsSplit '@' (jsTrim s0)).getD 1 [])).getLastD []).isEmpty
      && ((jsSplit '.' ((jsSplit '@' (jsTrim s0)).getD 1 [])).getLastD []).all isLetterCh)) = true) by
      simp only [h11b, h11c]; decide),
    if_neg (show ¬((!isValidEmailL (jsTrim s0)) = true) by
      simp only [hvTrim]; decide)]

/-! ### Field-lookup lemmas for the settings merge -/

/-- Fields of an object value. -/
def objFields : JSVal → List (String × JSVal)
  | JSVal.vobj fields => fields
  | _ => []

theorem lookupFirst_append (a b : List (String × JSVal)) (k : String) :
    JSVal.lookupFirst (a ++ b) k
      = (JSVal.lookupFirst a k).or (JSVal.lookupFirst b k) := by
  induction a with
  | nil => simp [JSVal.lookupFirst, Option.or]
  | cons kv t ih =>
    obtain ⟨k0, v0⟩ := kv
    simp only [List.cons_append, JSVal.lookupFirst]
    by_cases h : k0 = k
    · simp [h, Option.or]
    · simp [h, ih]

theorem lookupFirst_overridden (a b : List (String × JSVal)) (k : String) :
    JSVal.lookupFirst (a.map (fun kv => (kv.1, (JSVal.lookupFirst b kv.1).getD kv.2))) k
      = (JSVal.lookupFirst a k).map (fun v => (JSVal.lookupFirst b k).getD v) := by
  induction a with
  | nil => simp [JSVal.lookupFirst]
  | cons kv t ih =>
    obtain ⟨k0, v0⟩ := kv
    simp only [List.map_cons, JSVal.lookupFirst]
    by_cases h : k0 = k
    · subst h
      simp
    · simp [h, ih]

theorem lookupFirst_filterNew (a b : List (String × JSVal)) (k : String) :
    JSVal.lookupFirst (b.filter (fun kv => (JSVal.lookupFirst a kv.1).isNone)) k
      = if (JSVal.lookupFirst a k).isNone then JSVal.lookupFirst b k else none := by
  induction b with
  | nil => simp [JSVal.lookupFirst]
  | cons kv t ih =>
    obtain ⟨k0, v0⟩ := kv
    by_cases hp : (JSVal.lookupFirst a k0).isNone
    · rw [List.filter_cons_of_pos (by simpa using hp)]
      by_cases h : k0 = k
      · subst h
        simp [JSVal.lookupFirst, hp]
      · simp only [JSVal.lookupFirst, h, if_neg, ite_false]
        simpa [h] using ih
    · rw [List.filter_cons_of_neg (by simpa using hp)]
      by_cases h : k0 = k
      · subst h
        simp [ih, JSVal.lookupFirst, hp]
      · simpa [JSVal.lookupFirst, h] using ih

theorem lookupFirst_spreadMerge (a b : List (String × JSVal)) (k : String) :
    JSVal.lookupFirst (spreadMerge a b) k
      = (JSVal.lookupFirst b k).or (JSVal.lookupFirst a k) := by
  unfold spreadMerge
  rw [lookupFirst_append, lookupFirst_overridden, lookupFirst_filterNew]
  cases ha : JSVal.lookupFirst a k <;> cases hb : JSVal.lookupFirst b k <;>
    simp [Option.or]

/-! ### Counting filtered-out elements -/

theorem countP_not_eq_sub {α} (p : α → Bool) (l : List α) :
    l.countP (fun a => !p a) = l.length - (l.filter p).length := by
  induction l with
  | nil => simp
  | cons a t ih =>
    have hle : (t.filter p).length ≤ t.length := List.length_filter_le p t
    by_cases h : p a = true
    · rw [List.countP_cons, List.filter_cons_of_pos h, ih]
      simp only [h]
      rw [if_neg (by decide)]
      simp only [List.length_cons]
      omega
    · rw [Bool.not_eq_true] at h
      rw [List.countP_cons, List.filter_cons_of_neg (by simp [h]), ih]
      simp only [h]
      rw [if_pos (by decide)]
      simp only [List.length_cons]
      omega

/-! ### Decimal digits of generateId -/

theorem digitChar_toNat {d : Nat} (h : d < 10) : (digitChar d).toNat = 48 + d := by
  interval_cases d <;> decide

theorem isDigit_digitChar {d : Nat} (h : d < 10) : isDigitCh (digitChar d) = true := by
  interval_cases d <;> decide

theorem natToDigits_digits (n : Nat) : ∀ c ∈ natToDigits n, isDigitCh c = true := by
  induction n using Nat.strong_induction_on with
  | _ n ih =>
    unfold natToDigits
    split
    · rename_i h
      intro c hc
      simp only [List.mem_singleton] at hc
      subst hc
      exact isDigit_digitChar h
    · rename_i h
      intro c hc
      rcases List.mem_append.mp hc with h1 | h2
      · exact ih (n / 10) (Nat.div_lt_self (by omega) (by omega)) c h1
      · simp only [List.mem_singleton] at h2
        subst h2
        exact isDigit_digitChar (Nat.mod_lt _ (by omega))

def digitsVal (l : List Char) : Nat :=
  l.foldl (fun acc c => acc * 10 + (c.toNat - 48)) 0

theorem foldl_natToDigits (n : Nat) : ∀ acc : Nat,
    (natToDigits n).foldl (fun acc c => acc * 10 + (c.toNat - 48)) acc
      = acc * 10 ^ (natToDigits n).length + n := by
  induction n using Nat.strong_induction_on with
  | _ n ih =>
    intro acc
    unfold natToDigits
    split
    · rename_i h
      simp only [List.foldl_cons, List.foldl_nil, List.length_singleton,
        digitChar_toNat h, pow_one]
      omega
    · rename_i h
      rw [List.foldl_append]
      rw [ih (n / 10) (Nat.div_lt_self (by omega) (by omega)) acc]
      simp only [List.foldl_cons, List.foldl_nil, List.length_append,
        List.length_singleton]
      rw [digitChar_toNat (Nat.mod_lt _ (by omega))]
      have hsub : 48 + n % 10 - 48 = n % 10 := by omega
      rw [hsub, pow_succ, Nat.add_mul, Nat.mul_assoc]
      have hdm := Nat.div_add_mod n 10
      omega

theorem digitsVal_natToDigits (n : Nat) : digitsVal (natToDigits n) = n := by
  unfold digitsVal
  rw [foldl_natToDigits]
  simp

theorem natToDigits_inj {m n : Nat} (h : natToDigits m = natToDigits n) : m = n := by
  have hm := digitsVal_natToDigits m
  rw [h, digitsVal_natToDigits] at hm
  omega

theorem append_sep_inj {sep : Char} {x1 : List Char} :
    ∀ {x2 r1 r2 : List Char},
    sep ∉ x1 → sep ∉ x2 → x1 ++ sep :: r1 = x2 ++ sep :: r2 →
    x1 = x2 ∧ r1 = r2 := by
  induction x1 with
  | nil =>
    intro x2 r1 r2 h1 h2 h
    cases x2 with
    | nil =>
      simp only [List.nil_append, List.cons.injEq] at h
      exact ⟨rfl, h.2⟩
    | cons c t =>
      simp only [List.nil_append, List.cons_append, List.cons.injEq] at h
      exact absurd (h.1 ▸ List.mem_cons_self c t) h2
  | cons c t ih =>
    intro x2 r1 r2 h1 h2 h
    cases x2 with
    | nil =>
      simp only [List.nil_append, List.cons_append, List.cons.injEq] at h
      exact absurd (h.1.symm ▸ List.mem_cons_self c t) h1
    | cons c2 t2 =>
      simp only [List.cons_append, List.cons.injEq] at h
      obtain ⟨hc, hrest⟩ := h
      subst hc
      obtain ⟨he, hr⟩ := ih (fun hm => h1 (List.mem_cons_of_mem _ hm))
        (fun hm => h2 (List.mem_cons_of_mem _ hm)) hrest
      exact ⟨by rw [he], hr⟩

theorem generateId_inj {n1 n2 : Nat} {r1 r2 : List Char}
    (h : generateId n1 r1 = generateId n2 r2) : n1 = n2 ∧ r1 = r2 := by
  unfold generateId at h
  have h2 := List.append_cancel_left h
  have hd1 : '_' ∉ natToDigits n1 := fun hm =>
    absurd (natToDigits_digits n1 '_' hm) (by decide)
  have hd2 : '_' ∉ natToDigits n2 := fun hm =>
    absurd (natToDigits_digits n2 '_' hm) (by decide)
  obtain ⟨hdig, hr⟩ := append_sep_inj hd1 hd2 h2
  exact ⟨natToDigits_inj hdig, hr⟩

theorem runAdds_ids (calls : List ((Nat × List Char) × JSVal)) :
    (runAdds calls).map MTask.id
      = calls.map (fun c => generateId c.1.1 c.1.2) := by
  unfold runAdds
  suffices h : ∀ col : List MTask,
      ((calls.foldl (fun col c => addTask c.1 c.2 col) col).map MTask.id)
        = col.map MTask.id ++ calls.map (fun c => generateId c.1.1 c.1.2) by
    simpa using h []
  induction calls with
  | nil => intro col; simp
  | cons c cs ih =>
    intro col
    simp only [List.foldl_cons, List.map_cons]
    rw [ih]
    simp [addTask]

/-! ### Concrete values used by counterexamples and witnesses -/

/-- A task present only in the sessionStorage backup, distinct from every
seed task. -/
def backupTask : JSVal :=
  JSVal.vobj [("id", JSVal.vstr "backup_1"), ("title", JSVal.vstr "Backup task"),
    ("dueDate", JSVal.vstr "2025-02-01"), ("duration", JSVal.vnum 1),
    ("tag", JSVal.vstr "Homework")]

/-- Storage with an empty primary entry area and a nonempty session backup. -/
def c1State : StorageState :=
  { localData := none,
    sessionBackup := some (StoredString.json (JSVal.varr [backupTask])),
    settingsData := none,
    localWriteFails := false, sessionWriteFails := false, seedFails := false }

/-- Storage whose primary entry holds a string on which JSON.parse throws,
while the session backup holds a good nonempty task array. -/
def c4State : StorageState :=
  { localData := some StoredString.invalid,
    sessionBackup := some (StoredString.json (JSVal.varr [backupTask])),
    settingsData := none,
    localWriteFails := false, sessionWriteFails := false, seedFails := false }

/-- Storage with both empty stores and working seed data. -/
def c4WitnessState : StorageState :=
  { localData := none, sessionBackup := none, settingsData := none,
    localWriteFails := false, sessionWriteFails := false, seedFails := false }

/-- Storage where both web stores reject writes. -/
def c5State : StorageState :=
  { localData := none, sessionBackup := none, settingsData := none,
    localWriteFails := true, sessionWriteFails := true, seedFails := false }

/-- Storage where only the primary store rejects writes. -/
def c5bState : StorageState :=
  { localData := none, sessionBackup := none, settingsData := none,
    localWriteFails := true, sessionWriteFails := false, seedFails := false }

/-- The read side of `loadTasks` never sees a task-collection entry here:
primary absent or holding a parseable non-collection value. -/
def primaryNoTasks (st : StorageState) : Prop :=
  st.localData = none ∨
  ∃ v, st.localData = some (StoredString.json v) ∧ v.isNonemptyArray = false

/-- Same for the session backup entry. -/
def backupNoTasks (st : StorageState) : Prop :=
  st.sessionBackup = none ∨
  ∃ v, st.sessionBackup = some (StoredString.json v) ∧ v.isNonemptyArray = false

/-- The claimed sufficient email form, written from the spec sentence for
comparison with the implementation: the local part contains at least one
ASCII letter and the final domain label is at least 2 alphabetic
characters. -/
def claimedEmailForm (localPart dom tld : List Char) : Bool :=
  (!localPart.isEmpty) && localPart.any isLetterCh && (!dom.isEmpty) &&
  decide (2 ≤ tld.length) && tld.all isLetterCh

/-! ### C1 — save/load round-trip -/

/-- C1 (counterexample): saving the empty collection and loading does not
return the empty collection — `loadTasks` skips a stored empty array and
falls back to the session backup. -/
theorem claim1_save_load_counterexample :
    (saveTasks c1State []).2 = true ∧
    (loadTasks (saveTasks c1State []).1).2 = [backupTask] ∧
    [backupTask] ≠ ([] : List JSVal) :=
  ⟨rfl, rfl, by simp⟩

/-- C1 (amended): for every nonempty task collection, when the primary
store accepts the write, `saveTasks` followed by `loadTasks` returns the
same collection. -/
theorem claim1_save_load_roundtrip (st : StorageState) (ts : List JSVal)
    (hw : st.localWriteFails = false) (hne : ts ≠ []) :
    (loadTasks (saveTasks st ts).1).2 = ts := by
  cases ts with
  | nil => exact absurd rfl hne
  | cons t ts2 =>
    unfold saveTasks
    rw [hw]
    rw [if_neg (by decide)]
    rw [if_pos (by simp : 0 < (t :: ts2).length)]
    unfold createAutomaticBackup
    by_cases hs : st.sessionWriteFails = true
    · rw [if_pos hs]
      simp [loadTasks, loadTasksTry, JSVal.isNonemptyArray, JSVal.arrElems]
    · rw [if_neg hs]
      simp [loadTasks, loadTasksTry, JSVal.isNonemptyArray, JSVal.arrElems]

theorem claim1_save_load_roundtrip_witness :
    (loadTasks (saveTasks c1State [backupTask]).1).2 = [backupTask] :=
  claim1_save_load_roundtrip c1State [backupTask] rfl (by simp)

/-! ### C2 — email validation acceptance -/

/-- C2 (counterexample): "a..b@x.com" is of the claimed form — the local
part "a..b" contains a letter and the final label "com" has 3 letters —
yet `isValidEmail` rejects it, refuting the claim's universal sentence as
stated. -/
theorem claim2_email_form_counterexample :
    claimedEmailForm "a..b".data "x".data "com".data = true ∧
    "a..b".data ++ '@' :: ("x".data ++ '.' :: "com".data) = "a..b@x.com".data ∧
    isValidEmail "a..b@x.com" = false :=
  ⟨by decide, by decide, by decide⟩

/-- C2 (amended): every address local@domain.tld passes `isValidEmail`
when the local part consists of characters of the validator's local class,
contains a letter, is at most 64 characters, and has no leading, trailing
or doubled dot; the intermediate label matches the regex label shape; the
final label is 2 to 63 alphabetic characters; and the whole address is at
most 254 characters.  In particular "12@gmail.com" (no letter in the local
part) and "a..b@x.com" (doubled dot) are rejected. -/
theorem claim2_email_validation (locl d tld : List Char)
    (hl0 : locl ≠ [])
    (hl1 : locl.length ≤ 64)
    (hl2 : ∀ c ∈ locl, isLocalChar c = true)
    (hl3 : locl.any isLetterCh = true)
    (hl4 : jsStartsWith '.' locl = false)
    (hl5 : jsEndsWith '.' locl = false)
    (hl6 : hasDoubleDot locl = false)
    (hd : regexLabelOk d = true)
    (ht2 : 2 ≤ tld.length) (ht63 : tld.length ≤ 63)
    (htA : ∀ c ∈ tld, isLetterCh c = true)
    (hlen : locl.length + d.length + tld.length + 2 ≤ 254) :
    isValidEmailL (locl ++ '@' :: (d ++ '.' :: tld)) = true ∧
    isValidEmail "12@gmail.com" = false ∧
    isValidEmail "a..b@x.com" = false :=
  ⟨isValidEmailL_shape locl d tld hl0 hl1 hl2 hl3 hl4 hl5 hl6 hd ht2 ht63 htA hlen,
   by decide, by decide⟩

theorem claim2_email_validation_witness :
    isValidEmailL ("user".data ++ '@' :: ("example".data ++ '.' :: "com".data)) = true ∧
    isValidEmail "12@gmail.com" = false ∧
    isValidEmail "a..b@x.com" = false :=
  claim2_email_validation "user".data "example".data "com".data
    (by decide) (by decide) (by decide) (by decide) (by decide) (by decide)
    (by decide) (by decide) (by decide) (by decide) (by decide) (by decide)

/-! ### C3 — importData filters invalid tasks -/

/-- C3: on a parseable object whose tasks field is an array, `importData`
succeeds, accepts exactly the structurally valid tasks in their original
order, and reports the number of skipped tasks in its errors list (no
entry when none were skipped). -/
theorem claim3_import_filter (d : JSVal) (l : List JSVal)
    (hne : d.falsy = false) (hty : d.typeofJS = "object")
    (htasks : d.getProp "tasks" = JSVal.varr l) :
    (importData (Except.ok d)).success = true ∧
    (importData (Except.ok d)).tasks = l.filter validateTaskStructure ∧
    (importData (Except.ok d)).errors =
      (if 0 < l.countP (fun t => !validateTaskStructure t)
       then [skipMsg (l.countP (fun t => !validateTaskStructure t))] else []) := by
  simp only [importData, hne, hty, htasks, beq_self_eq_true, Bool.not_true,
    Bool.or_self, Bool.false_eq_true, if_false]
  refine ⟨trivial, trivial, ?_⟩
  rw [countP_not_eq_sub]

/-- One valid and one malformed record for exercising `importData`. -/
def importWitnessBatch : JSVal :=
  JSVal.vobj [("tasks", JSVal.varr [backupTask, JSVal.vstr "garbage"])]

theorem claim3_import_filter_witness :
    (importData (Except.ok importWitnessBatch)).success = true ∧
    (importData (Except.ok importWitnessBatch)).tasks
      = [backupTask, JSVal.vstr "garbage"].filter validateTaskStructure ∧
    (importData (Except.ok importWitnessBatch)).errors =
      (if 0 < [backupTask, JSVal.vstr "garbage"].countP
          (fun t => !validateTaskStructure t)
       then [skipMsg ([backupTask, JSVal.vstr "garbage"].countP
          (fun t => !validateTaskStructure t))] else []) :=
  claim3_import_filter importWitnessBatch [backupTask, JSVal.vstr "garbage"]
    rfl rfl rfl

/-! ### C4 — loadTasks fallback order -/

/-- C4 (counterexample): when the primary entry fails to parse, `loadTasks`
skips the session backup entirely and returns the seed data, contradicting
the claimed primary, then backup, then seed order. -/
theorem claim4_fallback_counterexample :
    (loadTasks c4State).2 = seedTasks ∧ seedTasks ≠ [backupTask] := by
  refine ⟨rfl, ?_⟩
  intro h
  have hlen := congrArg List.length h
  simp [seedTasks] at hlen

/-- C4 (amended): `loadTasks` is total and resolves in this order: the
primary entry when it parses to a nonempty array; otherwise the session
backup when it parses to a nonempty array (also writing it back to the
primary store); otherwise the seed data; otherwise the empty collection.
A parse throw on either store jumps directly to the seed data, skipping
the backup. -/
theorem claim4_fallback_order (st : StorageState) :
    (∀ x xs, st.localData = some (StoredString.json (JSVal.varr (x :: xs))) →
      loadTasks st = (st, x :: xs)) ∧
    (primaryNoTasks st → ∀ y ys,
      st.sessionBackup = some (StoredString.json (JSVal.varr (y :: ys))) →
      st.localWriteFails = false →
      loadTasks st = ({ st with localData := st.sessionBackup }, y :: ys)) ∧
    (primaryNoTasks st → backupNoTasks st → st.seedFails = false →
      (loadTasks st).2 = seedTasks) ∧
    (primaryNoTasks st → backupNoTasks st → st.seedFails = true →
      (loadTasks st).2 = []) ∧
    (st.localData = some StoredString.invalid →
      (loadTasks st).2 = if st.seedFails then [] else seedTasks) := by
  refine ⟨?_, ?_, ?_, ?_, ?_⟩
  · intro x xs hld
    unfold loadTasks loadTasksTry
    rw [hld]
    simp [JSVal.isNonemptyArray, JSVal.arrElems]
  · intro hp y ys hb hw
    unfold loadTasks loadTasksTry loadFromBackup
    rcases hp with hnone | ⟨v, hv, hvf⟩
    · rw [hnone, hb]
      simp [JSVal.isNonemptyArray, JSVal.arrElems, hw, hb]
    · rw [hv, hb]
      have hlit : (JSVal.varr (y :: ys)).isNonemptyArray = true := rfl
      simp [hvf, hlit, JSVal.arrElems, hw, hb]
  · intro hp hbk hs
    unfold loadTasks loadTasksTry loadFromBackup loadSeedData
    rcases hp with hnone | ⟨v, hv, hvf⟩ <;>
      rcases hbk with hbnone | ⟨w, hw2, hwf⟩ <;>
      simp_all [JSVal.isNonemptyArray, JSVal.arrElems]
  · intro hp hbk hs
    unfold loadTasks loadTasksTry loadFromBackup loadSeedData
    rcases hp with hnone | ⟨v, hv, hvf⟩ <;>
      rcases hbk with hbnone | ⟨w, hw2, hwf⟩ <;>
      simp_all [JSVal.isNonemptyArray, JSVal.arrElems]
  · intro hinv
    unfold loadTasks loadTasksTry loadSeedData
    rw [hinv]
    cases hsf : st.seedFails <;> simp [hsf]

theorem claim4_fallback_order_witness :
    (loadTasks c4WitnessState).2 = seedTasks :=
  (claim4_fallback_order c4WitnessState).2.2.1 (Or.inl rfl) (Or.inl rfl) rfl

/-! ### C5 — saveTasks failure reporting -/

/-- C5 (counterexample): when both stores reject writes, `saveTasks`
returns false but nothing is written to the session fallback, so the
claim's "writes the collection to the fallback store" fails as stated. -/
theorem claim5_save_counterexample :
    (saveTasks c5State [backupTask]).2 = false ∧
    (saveTasks c5State [backupTask]).1.sessionBackup = none :=
  ⟨rfl, rfl⟩

/-- C5 (amended): `saveTasks` is total; when the primary write succeeds it
returns true with the collection stored in the primary entry, and when the
primary write fails it returns false and, provided the session store
accepts the write, stores the collection in the session fallback. -/
theorem claim5_save_flag (st : StorageState) (ts : List JSVal) :
    (st.localWriteFails = false →
      (saveTasks st ts).2 = true ∧
      (saveTasks st ts).1.localData = some (StoredString.json (JSVal.varr ts))) ∧
    (st.localWriteFails = true →
      (saveTasks st ts).2 = false ∧
      (st.sessionWriteFails = false →
        (saveTasks st ts).1.sessionBackup
          = some (StoredString.json (JSVal.varr ts)))) := by
  constructor
  · intro hw
    unfold saveTasks
    rw [hw]
    rw [if_neg (by decide)]
    by_cases hlen : 0 < ts.length
    · rw [if_pos hlen]
      unfold createAutomaticBackup
      by_cases hs : st.sessionWriteFails = true
      · rw [if_pos hs]; exact ⟨rfl, rfl⟩
      · rw [if_neg hs]; exact ⟨rfl, rfl⟩
    · rw [if_neg hlen]; exact ⟨rfl, rfl⟩
  · intro hw
    unfold saveTasks
    rw [hw]
    rw [if_pos rfl]
    by_cases hs : st.sessionWriteFails = true
    · rw [if_pos hs]
      exact ⟨rfl, fun hsf => absurd hs (by simp [hsf])⟩
    · rw [if_neg hs]
      exact ⟨rfl, fun _ => rfl⟩

theorem claim5_save_flag_witness :
    (saveTasks c5bState [backupTask]).2 = false ∧
    (saveTasks c5bState [backupTask]).1.sessionBackup
      = some (StoredString.json (JSVal.varr [backupTask])) :=
  ⟨((claim5_save_flag c5bState [backupTask]).2 rfl).1,
   ((claim5_save_flag c5bState [backupTask]).2 rfl).2 rfl⟩

/-! ### C6 — importData success flag -/

/-- C6: `importData` reports failure exactly when the input fails to parse
or parses to something that is not a JS object (falsy, or of a non-object
typeof); on every parseable object it succeeds, regardless of how many
individual task records are malformed. -/
theorem claim6_import_success_iff (input : Except String JSVal) :
    (importData input).success = true ↔
      ∃ v, input = Except.ok v ∧ v.falsy = false ∧ v.typeofJS = "object" := by
  cases input with
  | error msg => simp [importData]
  | ok v =>
    simp only [importData]
    by_cases hcond : (v.falsy || !(v.typeofJS == "object")) = true
    · rw [if_pos hcond]
      simp only [Bool.or_eq_true, Bool.not_eq_true', beq_eq_false_iff_ne] at hcond
      constructor
      · intro hfalse
        exact absurd hfalse (by decide)
      · rintro ⟨v2, hv2, hfalsy, hty⟩
        injection hv2 with hv2
        subst hv2
        rcases hcond with hf | hne2
        · rw [hfalsy] at hf
          exact Bool.noConfusion hf
        · exact absurd hty hne2
    · rw [if_neg hcond]
      simp only [Bool.or_eq_true, Bool.not_eq_true', beq_eq_false_iff_ne,
        not_or] at hcond
      obtain ⟨hf, hty⟩ := hcond
      rw [Bool.not_eq_true] at hf
      cases hg : v.getProp "tasks" <;>
        exact ⟨fun _ => ⟨v, rfl, hf, not_ne_iff.mp hty⟩, fun _ => rfl⟩

theorem claim6_import_success_iff_witness :
    (importData (Except.ok (JSVal.vobj []))).success = true ↔
      ∃ v, (Except.ok (JSVal.vobj []) : Except String JSVal) = Except.ok v ∧
        v.falsy = false ∧ v.typeofJS = "object" :=
  claim6_import_success_iff (Except.ok (JSVal.vobj []))

/-! ### C7 — export envelope -/

/-- C7: for every task collection, settings object and ISO-8601 clock
reading, `exportData` produces an envelope with exactly the fields
version, exportedAt, tasks and settings, holding the literal "1.0", the
clock's ISO-8601 string, the given task array and the given settings. -/
theorem claim7_export_envelope (tasks : List JSVal) (settings : JSVal)
    (nowISO : String) (hnow : isISO8601 nowISO = true) :
    objKeys (exportData tasks settings nowISO)
      = ["version", "exportedAt", "tasks", "settings"] ∧
    (exportData tasks settings nowISO).getProp "version" = JSVal.vstr "1.0" ∧
    (exportData tasks settings nowISO).getProp "exportedAt" = JSVal.vstr nowISO ∧
    isISO8601 nowISO = true ∧
    (exportData tasks settings nowISO).getProp "tasks" = JSVal.varr tasks ∧
    (exportData tasks settings nowISO).getProp "settings" = settings :=
  ⟨rfl, rfl, rfl, hnow, rfl, rfl⟩

theorem claim7_export_envelope_witness :
    objKeys (exportData [] (JSVal.vobj []) "2025-01-01T00:00:00.000Z")
      = ["version", "exportedAt", "tasks", "settings"] ∧
    (exportData [] (JSVal.vobj []) "2025-01-01T00:00:00.000Z").getProp "version"
      = JSVal.vstr "1.0" ∧
    (exportData [] (JSVal.vobj []) "2025-01-01T00:00:00.000Z").getProp "exportedAt"
      = JSVal.vstr "2025-01-01T00:00:00.000Z" ∧
    isISO8601 "2025-01-01T00:00:00.000Z" = true ∧
    (exportData [] (JSVal.vobj []) "2025-01-01T00:00:00.000Z").getProp "tasks"
      = JSVal.varr [] ∧
    (exportData [] (JSVal.vobj []) "2025-01-01T00:00:00.000Z").getProp "settings"
      = JSVal.vobj [] :=
  claim7_export_envelope [] (JSVal.vobj []) "2025-01-01T00:00:00.000Z" (by decide)

/-! ### C8 — settings merge -/

/-- C8: `loadSettings` returns the defaults merged with the persisted
partial object — for every key, the persisted binding when present,
otherwise the default binding — and returns exactly the defaults when
nothing is persisted or parsing throws; the function is total, so it never
raises. -/
theorem claim8_settings_merge (st : StorageState) :
    (∀ fs, st.settingsData = some (StoredString.json (JSVal.vobj fs)) →
      ∀ k, JSVal.lookupFirst (objFields (loadSettings st)) k
        = (JSVal.lookupFirst fs k).or (JSVal.lookupFirst defaultSettingsFields k)) ∧
    (st.settingsData = none → loadSettings st = JSVal.vobj defaultSettingsFields) ∧
    (st.settingsData = some StoredString.invalid →
      loadSettings st = JSVal.vobj defaultSettingsFields) := by
  refine ⟨?_, ?_, ?_⟩
  · intro fs hset k
    unfold loadSettings
    rw [hset]
    show JSVal.lookupFirst (spreadMerge defaultSettingsFields (spreadFields (JSVal.vobj fs))) k = _
    rw [show spreadFields (JSVal.vobj fs) = fs from rfl]
    exact lookupFirst_spreadMerge defaultSettingsFields fs k
  · intro h
    unfold loadSettings
    rw [h]
  · intro h
    unfold loadSettings
    rw [h]

/-- A persisted partial settings object overriding one key. -/
def c8State : StorageState :=
  { localData := none, sessionBackup := none,
    settingsData := some (StoredString.json
      (JSVal.vobj [("timeUnit", JSVal.vstr "minutes")])),
    localWriteFails := false, sessionWriteFails := false, seedFails := false }

theorem claim8_settings_merge_witness :
    JSVal.lookupFirst (objFields (loadSettings c8State)) "timeUnit"
      = (JSVal.lookupFirst [("timeUnit", JSVal.vstr "minutes")] "timeUnit").or
        (JSVal.lookupFirst defaultSettingsFields "timeUnit") :=
  (claim8_settings_merge c8State).1 [("timeUnit", JSVal.vstr "minutes")] rfl "timeUnit"

/-! ### C9 — freshness of generated task ids -/

/-- C9 (counterexample): two add calls that observe the same clock
millisecond and the same random suffix produce identical ids, so the
resulting collection's ids are not pairwise distinct. -/
theorem claim9_duplicate_counterexample :
    ¬ ((runAdds [((1700000000000, ['a', 'b', 'c']), JSVal.vnull),
        ((1700000000000, ['a', 'b', 'c']), JSVal.vnull)]).map MTask.id).Pairwise
      (· ≠ ·) := by
  intro h
  rw [runAdds_ids] at h
  simp only [List.map_cons, List.map_nil] at h
  rw [List.pairwise_cons] at h
  exact h.1 _ (List.mem_singleton.mpr rfl) rfl

/-- C9 (amended): ids are generated fresh on every add call from the
observed clock and random draw, so whenever no two calls observe the same
(timestamp, suffix) pair, the resulting collection's ids are pairwise
distinct. -/
theorem claim9_fresh_ids (calls : List ((Nat × List Char) × JSVal))
    (h : (calls.map Prod.fst).Pairwise (· ≠ ·)) :
    ((runAdds calls).map MTask.id).Pairwise (· ≠ ·) := by
  rw [runAdds_ids]
  rw [List.pairwise_map] at h ⊢
  refine h.imp ?_
  intro a b hab heq
  obtain ⟨hn, hr⟩ := generateId_inj heq
  exact hab (Prod.ext hn hr)

theorem claim9_fresh_ids_witness :
    ((runAdds [((1, ['a']), JSVal.vnull),
        ((2, ['b']), JSVal.vnull)]).map MTask.id).Pairwise (· ≠ ·) :=
  claim9_fresh_ids [((1, ['a']), JSVal.vnull), ((2, ['b']), JSVal.vnull)]
    (by simp [List.pairwise_cons])

/-! ### C10 — error reporter agrees with the validator -/

/-- C10: `getEmailValidationError` returns null exactly when `isValidEmail`
accepts the input; in particular every non-null message accompanies a
rejected input. -/
theorem claim10_error_iff_valid (s : String) :
    getEmailValidationError s = none ↔ isValidEmail s = true :=
  ⟨getError_none_imp s.data, valid_imp_getError_none s.data⟩

theorem claim10_error_iff_valid_witness :
    getEmailValidationError "user@example.com" = none ↔
      isValidEmail "user@example.com" = true :=
  claim10_error_iff_valid "user@example.com"

end Planner